import Mathlib

/-!
Verification development for a Conway's Game of Life terminal program.

The program state lives in `src/grid.rs` (`Grid` with a live-cell set, a
preview overlay, dimensions and an insertion-ordered list for iteration),
the pattern catalog in `src/seed.rs`, and the index-to-pattern lookup in
`src/cli.rs` (`select_seed`).  Coordinates are `usize` pairs; `usize`
subtraction in the source is saturating, which `Nat` subtraction models
exactly, and `saturating_add` never saturates at terminal scales, modelled
by `Nat` addition.
-/

/-- A coordinate pair, mirroring `pub type Cell = (usize, usize)`. -/
abbrev Cell := Nat × Nat

/-- Still lifes, mirroring `enum Still` in `src/seed.rs`. -/
inductive Still
  | Block
  | Beehive
  | Loaf
  | Boat
  | Tub
deriving DecidableEq, Repr

/-- Oscillators, mirroring `enum Oscillator` in `src/seed.rs`. -/
inductive Oscillator
  | Blinker
  | Toad
  | Beacon
  | Pulsar
  | PentaDecathlon
deriving DecidableEq, Repr

/-- Spaceships, mirroring `enum Spaceship` in `src/seed.rs`. -/
inductive Spaceship
  | Glider
  | LwSpaceship
  | MwSpaceship
  | HwSpaceship
deriving DecidableEq, Repr

/-- All possible seeds, mirroring `enum Seed` in `src/seed.rs`. -/
inductive Seed
  | Cell (c : Cell)
  | Still (s : Still)
  | Oscillator (o : Oscillator)
  | Spaceship (s : Spaceship)
deriving DecidableEq, Repr

/-- `impl IsSeed for Cell`: a single cell seed yields just the origin. -/
def Cell.seedCells (_self : Cell) (origin : Cell) : List Cell :=
  [origin]

/-- `impl IsSeed for Still` in `src/seed.rs`: offsets relative to the origin,
with `saturating_sub` modelled by `Nat` subtraction. -/
def Still.seedCells (s : Still) (origin : Cell) : List Cell :=
  match s with
  | Still.Block =>
      [origin,
       (origin.1 + 1, origin.2),
       (origin.1, origin.2 + 1),
       (origin.1 + 1, origin.2 + 1)]
  | Still.Beehive =>
      [origin,
       (origin.1 + 1, origin.2),
       (origin.1 - 1, origin.2 + 1),
       (origin.1 + 2, origin.2 + 1),
       (origin.1, origin.2 + 2),
       (origin.1 + 1, origin.2 + 2)]
  | Still.Loaf =>
      [origin,
       (origin.1 + 1, origin.2),
       (origin.1 - 1, origin.2 + 1),
       (origin.1 + 2, origin.2 + 1),
       (origin.1, origin.2 + 2),
       (origin.1 + 2, origin.2 + 2),
       (origin.1 + 1, origin.2 + 3)]
  | Still.Boat =>
      [origin,
       (origin.1 + 1, origin.2),
       (origin.1, origin.2 + 1),
       (origin.1 + 2, origin.2 + 1),
       (origin.1 + 1, origin.2 + 2)]
  | Still.Tub =>
      [origin,
       (origin.1 - 1, origin.2 + 1),
       (origin.1 + 1, origin.2 + 1),
       (origin.1, origin.2 + 2)]

/-- `impl IsSeed for Oscillator` in `src/seed.rs`. -/
def Oscillator.seedCells (o : Oscillator) (origin : Cell) : List Cell :=
  match o with
  | Oscillator.Blinker =>
      [origin,
       (origin.1 + 1, origin.2),
       (origin.1 + 2, origin.2)]
  | Oscillator.Toad =>
      [origin,
       (origin.1 + 1, origin.2),
       (origin.1 + 2, origin.2),
       (origin.1 - 1, origin.2 + 1),
       (origin.1, origin.2 + 1),
       (origin.1 + 1, origin.2 + 1)]
  | Oscillator.Beacon =>
      [origin,
       (origin.1 + 1, origin.2),
       (origin.1, origin.2 + 1),
       (origin.1 + 1, origin.2 + 1),
       (origin.1 + 2, origin.2 + 2),
       (origin.1 + 2, origin.2 + 3),
       (origin.1 + 3, origin.2 + 2),
       (origin.1 + 3, origin.2 + 3)]
  | Oscillator.Pulsar =>
      [origin,
       (origin.1 + 1, origin.2),
       (origin.1 + 2, origin.2),
       (origin.1 + 6, origin.2),
       (origin.1 + 7, origin.2),
       (origin.1 + 8, origin.2),
       (origin.1 - 2, origin.2 + 2),
       (origin.1 + 3, origin.2 + 2),
       (origin.1 + 5, origin.2 + 2),
       (origin.1 + 10, origin.2 + 2),
       (origin.1 - 2, origin.2 + 3),
       (origin.1 + 3, origin.2 + 3),
       (origin.1 + 5, origin.2 + 3),
       (origin.1 + 10, origin.2 + 3),
       (origin.1 - 2, origin.2 + 4),
       (origin.1 + 3, origin.2 + 4),
       (origin.1 + 5, origin.2 + 4),
       (origin.1 + 10, origin.2 + 4),
       (origin.1, origin.2 + 5),
       (origin.1 + 1, origin.2 + 5),
       (origin.1 + 2, origin.2 + 5),
       (origin.1 + 6, origin.2 + 5),
       (origin.1 + 7, origin.2 + 5),
       (origin.1 + 8, origin.2 + 5),
       (origin.1, origin.2 + 7),
       (origin.1 + 1, origin.2 + 7),
       (origin.1 + 2, origin.2 + 7),
       (origin.1 + 6, origin.2 + 7),
       (origin.1 + 7, origin.2 + 7),
       (origin.1 + 8, origin.2 + 7),
       (origin.1 - 2, origin.2 + 8),
       (origin.1 + 3, origin.2 + 8),
       (origin.1 + 5, origin.2 + 8),
       (origin.1 + 10, origin.2 + 8),
       (origin.1 - 2, origin.2 + 9),
       (origin.1 + 3, origin.2 + 9),
       (origin.1 + 5, origin.2 + 9),
       (origin.1 + 10, origin.2 + 9),
       (origin.1 - 2, origin.2 + 10),
       (origin.1 + 3, origin.2 + 10),
       (origin.1 + 5, origin.2 + 10),
       (origin.1 + 10, origin.2 + 10),
       (origin.1, origin.2 + 12),
       (origin.1 + 1, origin.2 + 12),
       (origin.1 + 2, origin.2 + 12),
       (origin.1 + 6, origin.2 + 12),
       (origin.1 + 7, origin.2 + 12),
       (origin.1 + 8, origin.2 + 12)]
  | Oscillator.PentaDecathlon =>
      [origin,
       (origin.1, origin.2 + 1),
       (origin.1 - 1, origin.2 + 2),
       (origin.1 + 1, origin.2 + 2),
       (origin.1, origin.2 + 3),
       (origin.1, origin.2 + 4),
       (origin.1, origin.2 + 5),
       (origin.1, origin.2 + 6),
       (origin.1 - 1, origin.2 + 7),
       (origin.1 + 1, origin.2 + 7),
       (origin.1, origin.2 + 8),
       (origin.1, origin.2 + 9)]

/-- `impl IsSeed for Spaceship` in `src/seed.rs`. -/
def Spaceship.seedCells (s : Spaceship) (origin : Cell) : List Cell :=
  match s with
  | Spaceship.Glider =>
      [origin,
       (origin.1 - 1, origin.2 + 1),
       (origin.1 - 1, origin.2 + 2),
       (origin.1, origin.2 + 2),
       (origin.1 + 1, origin.2 + 2)]
  | Spaceship.LwSpaceship =>
      [origin,
       (origin.1 + 3, origin.2),
       (origin.1 - 1, origin.2 + 1),
       (origin.1 - 1, origin.2 + 2),
       (origin.1 + 3, origin.2 + 2),
       (origin.1 - 1, origin.2 + 3),
       (origin.1, origin.2 + 3),
       (origin.1 + 1, origin.2 + 3),
       (origin.1 + 2, origin.2 + 3)]
  | Spaceship.MwSpaceship =>
      [origin,
       (origin.1 - 2, origin.2 + 1),
       (origin.1 + 2, origin.2 + 1),
       (origin.1 + 3, origin.2 + 2),
       (origin.1 - 2, origin.2 + 3),
       (origin.1 + 3, origin.2 + 3),
       (origin.1 - 1, origin.2 + 4),
       (origin.1, origin.2 + 4),
       (origin.1 + 1, origin.2 + 4),
       (origin.1 + 2, origin.2 + 4),
       (origin.1 + 3, origin.2 + 4)]
  | Spaceship.HwSpaceship =>
      [origin,
       (origin.1 + 1, origin.2),
       (origin.1 - 2, origin.2 + 1),
       (origin.1 + 3, origin.2 + 1),
       (origin.1 + 4, origin.2 + 2),
       (origin.1 - 2, origin.2 + 3),
       (origin.1 + 4, origin.2 + 3),
       (origin.1 - 1, origin.2 + 4),
       (origin.1, origin.2 + 4),
       (origin.1 + 1, origin.2 + 4),
       (origin.1 + 2, origin.2 + 4),
       (origin.1 + 3, origin.2 + 4),
       (origin.1 + 4, origin.2 + 4)]

/-- `impl IsSeed for Seed`: dispatch to the variant's cell list. -/
def Seed.seedCells (s : Seed) (origin : Nat × Nat) : List (Nat × Nat) :=
  match s with
  | Seed.Cell c => Cell.seedCells c origin
  | Seed.Still st => Still.seedCells st origin
  | Seed.Oscillator o => Oscillator.seedCells o origin
  | Seed.Spaceship sp => Spaceship.seedCells sp origin

/-- The grid state, mirroring `struct Grid` in `src/grid.rs`: the `HashSet`
fields become `Finset`s and the `Vec` iteration list a `List`. -/
structure Grid where
  preview : Finset Cell
  cells : Finset Cell
  width : Nat
  height : Nat
  cells_list : List Cell
deriving DecidableEq

/-- `Grid::new` in `src/grid.rs`. -/
def Grid.new (width height : Nat) : Grid :=
  { preview := ∅, cells := ∅, width := width, height := height, cells_list := [] }

/-- `Grid::add_cell`: `HashSet::insert` returns true iff the cell was newly
inserted, and only then the preview is cleared and the list extended. -/
def Grid.add_cell (g : Grid) (cell : Cell) : Grid :=
  if cell ∈ g.cells then g
  else
    { g with
      cells := insert cell g.cells,
      preview := ∅,
      cells_list := g.cells_list ++ [cell] }

/-- `Grid::seed`: add every cell of the pattern's expansion, in order. -/
def Grid.seed (g : Grid) (s : Seed) (origin : Cell) : Grid :=
  (s.seedCells origin).foldl Grid.add_cell g

/-- `Grid::preview` (the method, named apart from the field): clear the
overlay, then insert every cell of the expansion. -/
def Grid.preview_seed (g : Grid) (s : Seed) (origin : Cell) : Grid :=
  { g with preview := (s.seedCells origin).toFinset }

/-- `Grid::resize`: early return on identical dimensions, otherwise rebuild
from the in-bounds part of `cells_list` into a fresh grid. -/
def Grid.resize (g : Grid) (width height : Nat) : Grid :=
  if width = g.width ∧ height = g.height then g
  else
    (g.cells_list.filter (fun cell => decide (cell.1 < width ∧ cell.2 < height))).foldl
      Grid.add_cell (Grid.new width height)

/-- `Grid::clear`: empty both sets and the iteration list. -/
def Grid.clear (g : Grid) : Grid :=
  { g with cells := ∅, preview := ∅, cells_list := [] }

/-- The iteration order of `Grid::for_each_neighbor_of`: `x` ranges over
`x.saturating_sub(1)..x.saturating_add(2)` (outer loop), `y` likewise
(inner loop), skipping the cell itself. -/
def neighborList (cell : Cell) : List Cell :=
  ((List.range' (cell.1 - 1) (cell.1 + 2 - (cell.1 - 1))) ×ˢ
      (List.range' (cell.2 - 1) (cell.2 + 2 - (cell.2 - 1)))).filter
    (fun n => decide (¬(n.1 = cell.1 ∧ n.2 = cell.2)))

/-- `Grid::count_neighbors`: count the neighbors present in `cells`. -/
def Grid.count_neighbors (g : Grid) (cell : Cell) : Nat :=
  ((neighborList cell).filter (fun n => decide (n ∈ g.cells))).length

/-- `Grid::tick`: fold over the frozen `cells_list`, applying the survival
rule to each live cell and the birth rule to each of its neighbors, adding
survivors and births into a fresh grid that then replaces the state. -/
def Grid.tick (g : Grid) : Grid :=
  g.cells_list.foldl
    (fun next cell =>
      let next :=
        if g.count_neighbors cell = 2 ∨ g.count_neighbors cell = 3 then
          next.add_cell cell
        else next
      (neighborList cell).foldl
        (fun next neighbor =>
          if g.count_neighbors neighbor = 3 then next.add_cell neighbor else next)
        next)
    (Grid.new g.width g.height)

/-- `select_seed` in `src/cli.rs`: the index-to-pattern lookup table. -/
def select_seed (index : Nat) : Seed :=
  match index with
  | 1 => Seed.Still Still.Block
  | 2 => Seed.Still Still.Beehive
  | 3 => Seed.Still Still.Loaf
  | 4 => Seed.Still Still.Boat
  | 5 => Seed.Still Still.Tub
  | 6 => Seed.Oscillator Oscillator.Blinker
  | 7 => Seed.Oscillator Oscillator.Toad
  | 8 => Seed.Oscillator Oscillator.Beacon
  | 9 => Seed.Oscillator Oscillator.Pulsar
  | 10 => Seed.Oscillator Oscillator.PentaDecathlon
  | 11 => Seed.Spaceship Spaceship.Glider
  | 12 => Seed.Spaceship Spaceship.LwSpaceship
  | 13 => Seed.Spaceship Spaceship.MwSpaceship
  | 14 => Seed.Spaceship Spaceship.HwSpaceship
  | _ => Seed.Cell (0, 0)

example : ((Grid.new 3 3).add_cell (1, 1)).tick.cells = ∅ := by decide

example :
    ((((Grid.new 3 3).add_cell (0, 0)).add_cell (1, 0)).add_cell (2, 1)).tick.cells =
      {(1, 0), (1, 1)} := by decide

/-! ## Basic lemmas about `add_cell` and folds of it -/

theorem Grid.add_cell_of_mem {g : Grid} {c : Cell} (h : c ∈ g.cells) :
    g.add_cell c = g := by
  unfold Grid.add_cell
  simp [h]

theorem Grid.add_cell_cells (g : Grid) (c : Cell) :
    (g.add_cell c).cells = insert c g.cells := by
  unfold Grid.add_cell
  split
  · exact (Finset.insert_eq_self.mpr ‹_›).symm
  · rfl

theorem Grid.add_cell_width (g : Grid) (c : Cell) : (g.add_cell c).width = g.width := by
  unfold Grid.add_cell
  split <;> rfl

theorem Grid.add_cell_height (g : Grid) (c : Cell) : (g.add_cell c).height = g.height := by
  unfold Grid.add_cell
  split <;> rfl

theorem foldl_add_cell_cells :
    ∀ (l : List Cell) (g : Grid), (l.foldl Grid.add_cell g).cells = g.cells ∪ l.toFinset
  | [], g => by simp
  | c :: l, g => by
      rw [List.foldl_cons, foldl_add_cell_cells l, Grid.add_cell_cells]
      simp [Finset.insert_union, Finset.union_insert]

theorem foldl_add_cell_width :
    ∀ (l : List Cell) (g : Grid), (l.foldl Grid.add_cell g).width = g.width
  | [], _ => rfl
  | c :: l, g => by rw [List.foldl_cons, foldl_add_cell_width l, Grid.add_cell_width]

theorem foldl_add_cell_height :
    ∀ (l : List Cell) (g : Grid), (l.foldl Grid.add_cell g).height = g.height
  | [], _ => rfl
  | c :: l, g => by rw [List.foldl_cons, foldl_add_cell_height l, Grid.add_cell_height]

theorem foldl_add_cell_preview :
    ∀ (l : List Cell) (g : Grid),
      (l.foldl Grid.add_cell g).preview =
        if ∀ c ∈ l, c ∈ g.cells then g.preview else ∅
  | [], g => by simp
  | c :: l, g => by
      rw [List.foldl_cons]
      by_cases hc : c ∈ g.cells
      · rw [Grid.add_cell_of_mem hc, foldl_add_cell_preview l]
        exact if_congr (by simp [hc]) rfl rfl
      · have hres : (g.add_cell c).preview = ∅ ∧ (g.add_cell c).cells = insert c g.cells := by
          unfold Grid.add_cell
          simp [hc]
        rw [foldl_add_cell_preview l, hres.1, hres.2]
        simp [hc]

/-! ## Well-formedness: the iteration list matches the live set -/

/-- The weak invariant used by the tick characterization: membership in the
iteration list coincides with membership in the live set. -/
def Grid.WF (g : Grid) : Prop := ∀ c, c ∈ g.cells_list ↔ c ∈ g.cells

/-- The full auxiliary-list invariant: `cells_list` holds exactly the
elements of `cells`, each exactly once. -/
def Grid.Inv (g : Grid) : Prop := g.cells_list.Nodup ∧ g.cells_list.toFinset = g.cells

theorem Grid.Inv.wf {g : Grid} (h : g.Inv) : g.WF := by
  intro c
  rw [← h.2, List.mem_toFinset]

theorem Grid.new_Inv (w h : Nat) : (Grid.new w h).Inv := by
  constructor <;> simp [Grid.new]

theorem Grid.add_cell_Inv {g : Grid} (h : g.Inv) (c : Cell) : (g.add_cell c).Inv := by
  by_cases hc : c ∈ g.cells
  · rw [Grid.add_cell_of_mem hc]
    exact h
  · have hkey : (g.add_cell c).cells_list = g.cells_list ++ [c] ∧
        (g.add_cell c).cells = insert c g.cells := by
      unfold Grid.add_cell
      simp [hc]
    refine ⟨?_, ?_⟩
    · rw [hkey.1, List.nodup_append]
      have hnot : c ∉ g.cells_list := fun hmem => hc (h.wf c |>.mp hmem)
      refine ⟨h.1, by simp, ?_⟩
      intro a ha hac
      simp only [List.mem_singleton] at hac
      exact hnot (hac ▸ ha)
    · rw [hkey.1, hkey.2, List.toFinset_append, ← h.2]
      simp [Finset.union_comm, Finset.insert_eq]

theorem foldl_add_cell_Inv :
    ∀ (l : List Cell) {g : Grid}, g.Inv → (l.foldl Grid.add_cell g).Inv
  | [], _, h => h
  | c :: l, g, h => by
      rw [List.foldl_cons]
      exact foldl_add_cell_Inv l (g.add_cell_Inv h c)

/-! ## The neighborhood: membership, no duplicates, symmetry -/

theorem mem_neighborList {n c : Cell} :
    n ∈ neighborList c ↔
      n ≠ c ∧ c.1 ≤ n.1 + 1 ∧ n.1 ≤ c.1 + 1 ∧ c.2 ≤ n.2 + 1 ∧ n.2 ≤ c.2 + 1 := by
  obtain ⟨n1, n2⟩ := n
  obtain ⟨c1, c2⟩ := c
  unfold neighborList
  rw [List.mem_filter]
  simp only [List.mem_product, List.mem_range'_1, decide_eq_true_eq, ne_eq, Prod.mk.injEq,
    not_and]
  omega

theorem nodup_neighborList (c : Cell) : (neighborList c).Nodup := by
  unfold neighborList
  exact List.Nodup.filter _
    (List.Nodup.product (List.nodup_range' _ _) (List.nodup_range' _ _))

theorem neighborList_comm {n c : Cell} : n ∈ neighborList c ↔ c ∈ neighborList n := by
  obtain ⟨n1, n2⟩ := n
  obtain ⟨c1, c2⟩ := c
  rw [mem_neighborList, mem_neighborList]
  simp only [ne_eq, Prod.mk.injEq, not_and]
  omega

/-! ## Neighbor counts as cardinalities -/

/-- The neighbor count of `Grid::count_neighbors`, parameterized by the
population set it reads. -/
def countN (S : Finset Cell) (c : Cell) : Nat :=
  ((neighborList c).filter (fun n => decide (n ∈ S))).length

theorem count_neighbors_eq_countN (g : Grid) (c : Cell) :
    g.count_neighbors c = countN g.cells c := rfl

theorem countN_eq_card (S : Finset Cell) (c : Cell) :
    countN S c = (S ∩ (neighborList c).toFinset).card := by
  unfold countN
  rw [← List.toFinset_card_of_nodup (List.Nodup.filter _ (nodup_neighborList c)),
    List.toFinset_filter]
  congr 1
  ext n
  simp [List.mem_toFinset, Finset.mem_inter, and_comm]

theorem countN_pos_exists {S : Finset Cell} {c : Cell} (h : 0 < countN S c) :
    ∃ n ∈ S, n ∈ neighborList c := by
  unfold countN at h
  rw [List.length_pos] at h
  obtain ⟨n, hn⟩ := List.exists_mem_of_ne_nil _ h
  rw [List.mem_filter, decide_eq_true_eq] at hn
  exact ⟨n, hn.2, hn.1⟩

/-! ## The one-generation rule at the level of cell sets -/

/-- The standard rule read off `Grid::tick`: survive on 2 or 3 neighbors,
be born on exactly 3. -/
def aliveNextN (S : Finset Cell) (c : Cell) : Prop :=
  (c ∈ S ∧ (countN S c = 2 ∨ countN S c = 3)) ∨ (c ∉ S ∧ countN S c = 3)

instance (S : Finset Cell) : DecidablePred (aliveNextN S) := fun c => by
  unfold aliveNextN
  infer_instance

/-- Candidate cells for the next generation: the live cells and all their
neighbors. -/
def candidatesN (S : Finset Cell) : Finset Cell :=
  S ∪ S.biUnion (fun c => (neighborList c).toFinset)

/-- The next generation of a population set under the rule of `Grid::tick`. -/
def natLife (S : Finset Cell) : Finset Cell :=
  (candidatesN S).filter (aliveNextN S)

theorem mem_natLife {S : Finset Cell} {c : Cell} :
    c ∈ natLife S ↔ aliveNextN S c := by
  unfold natLife
  rw [Finset.mem_filter]
  constructor
  · exact fun h => h.2
  · intro h
    refine ⟨?_, h⟩
    unfold candidatesN
    rcases h with ⟨hmem, _⟩ | ⟨_, hcount⟩
    · exact Finset.mem_union_left _ hmem
    · have hpos : 0 < countN S c := by omega
      obtain ⟨n, hnS, hnnb⟩ := countN_pos_exists hpos
      refine Finset.mem_union_right _ (Finset.mem_biUnion.mpr ⟨n, hnS, ?_⟩)
      rw [List.mem_toFinset]
      exact neighborList_comm.mp hnnb

/-! ## Restructuring `tick` as a single fold over a candidate list -/

/-- The cells that `Grid::tick` feeds into `add_cell`, in order: for each
live cell, itself when the survival rule fires, then each neighbor for
which the birth rule fires. -/
def tickCandidates (g : Grid) : List Cell :=
  g.cells_list.flatMap (fun cell =>
    (if g.count_neighbors cell = 2 ∨ g.count_neighbors cell = 3 then [cell] else []) ++
      (neighborList cell).filter (fun n => decide (g.count_neighbors n = 3)))

theorem foldl_filter_cond {α β : Type} (p : α → Bool) (f : β → α → β) :
    ∀ (l : List α) (b : β),
      (l.filter p).foldl f b = l.foldl (fun acc x => if p x then f acc x else acc) b
  | [], _ => rfl
  | x :: l, b => by
      rw [List.filter_cons]
      by_cases hx : p x
      · simp only [hx, if_true, List.foldl_cons]
        exact foldl_filter_cond p f l (f b x)
      · simp only [hx, if_false, List.foldl_cons]
        exact foldl_filter_cond p f l b

theorem foldl_flatMap {α β γ : Type} (f : α → List γ) (op : β → γ → β) :
    ∀ (l : List α) (b : β),
      (l.flatMap f).foldl op b = l.foldl (fun acc a => (f a).foldl op acc) b
  | [], _ => rfl
  | a :: l, b => by
      rw [List.flatMap_cons, List.foldl_append, List.foldl_cons]
      exact foldl_flatMap f op l _

theorem foldl_birth (g : Grid) :
    ∀ (l : List Cell) (m : Grid),
      l.foldl
          (fun next neighbor =>
            if g.count_neighbors neighbor = 3 then next.add_cell neighbor else next) m =
        (l.filter (fun n => decide (g.count_neighbors n = 3))).foldl Grid.add_cell m
  | [], _ => rfl
  | n :: l, m => by
      rw [List.filter_cons, List.foldl_cons]
      simp only [decide_eq_true_eq]
      by_cases h : g.count_neighbors n = 3
      · rw [if_pos h, if_pos h, List.foldl_cons]
        exact foldl_birth g l _
      · rw [if_neg h, if_neg h]
        exact foldl_birth g l m

theorem tick_eq_foldl (g : Grid) :
    g.tick = (tickCandidates g).foldl Grid.add_cell (Grid.new g.width g.height) := by
  unfold Grid.tick tickCandidates
  rw [foldl_flatMap]
  congr 1
  funext next cell
  show
    (neighborList cell).foldl
        (fun next neighbor =>
          if g.count_neighbors neighbor = 3 then next.add_cell neighbor else next)
        (if g.count_neighbors cell = 2 ∨ g.count_neighbors cell = 3 then
          next.add_cell cell
        else next) =
      ((if g.count_neighbors cell = 2 ∨ g.count_neighbors cell = 3 then [cell] else []) ++
          (neighborList cell).filter (fun n => decide (g.count_neighbors n = 3))).foldl
        Grid.add_cell next
  rw [List.foldl_append, foldl_birth]
  congr 1
  by_cases hcond : g.count_neighbors cell = 2 ∨ g.count_neighbors cell = 3
  · rw [if_pos hcond, if_pos hcond]
    rfl
  · rw [if_neg hcond, if_neg hcond]
    rfl

theorem mem_tickCandidates {g : Grid} {x : Cell} :
    x ∈ tickCandidates g ↔
      ∃ cell ∈ g.cells_list,
        ((g.count_neighbors cell = 2 ∨ g.count_neighbors cell = 3) ∧ x = cell) ∨
          (x ∈ neighborList cell ∧ g.count_neighbors x = 3) := by
  unfold tickCandidates
  rw [List.mem_flatMap]
  constructor
  · rintro ⟨cell, hcell, hx⟩
    rw [List.mem_append] at hx
    refine ⟨cell, hcell, ?_⟩
    rcases hx with hx | hx
    · by_cases hcond : g.count_neighbors cell = 2 ∨ g.count_neighbors cell = 3
      · rw [if_pos hcond] at hx
        exact Or.inl ⟨hcond, List.mem_singleton.mp hx⟩
      · rw [if_neg hcond] at hx
        exact absurd hx (List.not_mem_nil x)
    · rw [List.mem_filter, decide_eq_true_eq] at hx
      exact Or.inr hx
  · rintro ⟨cell, hcell, hx | hx⟩
    · refine ⟨cell, hcell, List.mem_append.mpr (Or.inl ?_)⟩
      rw [if_pos hx.1]
      exact List.mem_singleton.mpr hx.2
    · refine ⟨cell, hcell, List.mem_append.mpr (Or.inr ?_)⟩
      rw [List.mem_filter, decide_eq_true_eq]
      exact hx

/-- The central characterization: on a well-formed grid, the live set after
`tick` is exactly the next generation of the live set under the rule. -/
theorem tick_cells {g : Grid} (hg : g.WF) : g.tick.cells = natLife g.cells := by
  rw [tick_eq_foldl, foldl_add_cell_cells]
  have hnew : (Grid.new g.width g.height).cells = ∅ := rfl
  rw [hnew, Finset.empty_union]
  ext x
  rw [List.mem_toFinset, mem_tickCandidates, mem_natLife]
  simp only [count_neighbors_eq_countN]
  constructor
  · rintro ⟨cell, hcell, ⟨hcond, hxe⟩ | ⟨hnb, h3⟩⟩
    · subst hxe
      exact Or.inl ⟨(hg x).mp hcell, hcond⟩
    · by_cases hxS : x ∈ g.cells
      · exact Or.inl ⟨hxS, Or.inr h3⟩
      · exact Or.inr ⟨hxS, h3⟩
  · rintro (⟨hxS, hcond⟩ | ⟨hxS, h3⟩)
    · exact ⟨x, (hg x).mpr hxS, Or.inl ⟨hcond, rfl⟩⟩
    · have hpos : 0 < countN g.cells x := by omega
      obtain ⟨n, hnS, hnnb⟩ := countN_pos_exists hpos
      exact ⟨n, (hg n).mpr hnS, Or.inr ⟨neighborList_comm.mp hnnb, h3⟩⟩

theorem tick_Inv (g : Grid) : g.tick.Inv := by
  rw [tick_eq_foldl]
  exact foldl_add_cell_Inv _ (Grid.new_Inv _ _)

theorem tick_width (g : Grid) : g.tick.width = g.width := by
  rw [tick_eq_foldl, foldl_add_cell_width]
  rfl

theorem tick_height (g : Grid) : g.tick.height = g.height := by
  rw [tick_eq_foldl, foldl_add_cell_height]
  rfl

/-! ## The rule on the unbounded integer plane -/

/-- The 8-neighborhood of a cell in the integer plane. -/
def zneighbors (c : ℤ × ℤ) : List (ℤ × ℤ) :=
  [(c.1 - 1, c.2 - 1), (c.1 - 1, c.2), (c.1 - 1, c.2 + 1),
   (c.1, c.2 - 1), (c.1, c.2 + 1),
   (c.1 + 1, c.2 - 1), (c.1 + 1, c.2), (c.1 + 1, c.2 + 1)]

theorem mem_zneighbors {n c : ℤ × ℤ} :
    n ∈ zneighbors c ↔
      n ≠ c ∧ c.1 - 1 ≤ n.1 ∧ n.1 ≤ c.1 + 1 ∧ c.2 - 1 ≤ n.2 ∧ n.2 ≤ c.2 + 1 := by
  obtain ⟨n1, n2⟩ := n
  obtain ⟨c1, c2⟩ := c
  simp only [zneighbors, List.mem_cons, List.not_mem_nil, or_false, Prod.mk.injEq, ne_eq,
    not_and]
  omega

theorem nodup_zneighbors (c : ℤ × ℤ) : (zneighbors c).Nodup := by
  obtain ⟨c1, c2⟩ := c
  simp only [zneighbors, List.nodup_cons, List.mem_cons, List.not_mem_nil, or_false,
    List.nodup_nil, and_true, Prod.mk.injEq, not_or, not_and, true_implies,
    not_false_eq_true]
  omega

theorem zneighbors_comm {n c : ℤ × ℤ} : n ∈ zneighbors c ↔ c ∈ zneighbors n := by
  obtain ⟨n1, n2⟩ := n
  obtain ⟨c1, c2⟩ := c
  rw [mem_zneighbors, mem_zneighbors]
  simp only [ne_eq, Prod.mk.injEq, not_and]
  omega

/-- Neighbor count in the integer plane. -/
def countZ (S : Finset (ℤ × ℤ)) (c : ℤ × ℤ) : Nat :=
  ((zneighbors c).filter (fun n => decide (n ∈ S))).length

theorem countZ_eq_card (S : Finset (ℤ × ℤ)) (c : ℤ × ℤ) :
    countZ S c = (S ∩ (zneighbors c).toFinset).card := by
  unfold countZ
  rw [← List.toFinset_card_of_nodup (List.Nodup.filter _ (nodup_zneighbors c)),
    List.toFinset_filter]
  congr 1
  ext n
  simp [List.mem_toFinset, Finset.mem_inter, and_comm]

theorem countZ_pos_exists {S : Finset (ℤ × ℤ)} {c : ℤ × ℤ} (h : 0 < countZ S c) :
    ∃ n ∈ S, n ∈ zneighbors c := by
  unfold countZ at h
  rw [List.length_pos] at h
  obtain ⟨n, hn⟩ := List.exists_mem_of_ne_nil _ h
  rw [List.mem_filter, decide_eq_true_eq] at hn
  exact ⟨n, hn.2, hn.1⟩

/-- The standard Game-of-Life rule in the integer plane. -/
def aliveNextZ (S : Finset (ℤ × ℤ)) (c : ℤ × ℤ) : Prop :=
  (c ∈ S ∧ (countZ S c = 2 ∨ countZ S c = 3)) ∨ (c ∉ S ∧ countZ S c = 3)

instance (S : Finset (ℤ × ℤ)) : DecidablePred (aliveNextZ S) := fun c => by
  unfold aliveNextZ
  infer_instance

/-- One generation in the integer plane. -/
def lifeZ (S : Finset (ℤ × ℤ)) : Finset (ℤ × ℤ) :=
  (S ∪ S.biUnion (fun c => (zneighbors c).toFinset)).filter (aliveNextZ S)

theorem mem_lifeZ {S : Finset (ℤ × ℤ)} {c : ℤ × ℤ} :
    c ∈ lifeZ S ↔ aliveNextZ S c := by
  unfold lifeZ
  rw [Finset.mem_filter]
  constructor
  · exact fun h => h.2
  · intro h
    refine ⟨?_, h⟩
    rcases h with ⟨hmem, _⟩ | ⟨_, hcount⟩
    · exact Finset.mem_union_left _ hmem
    · have hpos : 0 < countZ S c := by omega
      obtain ⟨n, hnS, hnnb⟩ := countZ_pos_exists hpos
      refine Finset.mem_union_right _ (Finset.mem_biUnion.mpr ⟨n, hnS, ?_⟩)
      rw [List.mem_toFinset]
      exact zneighbors_comm.mp hnnb

/-! ## Embedding the quadrant into the plane -/

/-- Cast a `Nat` coordinate pair into the integer plane. -/
def pushCell (c : Cell) : ℤ × ℤ := ((c.1 : ℤ), (c.2 : ℤ))

theorem pushCell_injective : Function.Injective pushCell := by
  intro a b h
  obtain ⟨a1, a2⟩ := a
  obtain ⟨b1, b2⟩ := b
  simp only [pushCell, Prod.mk.injEq] at h ⊢
  omega

/-- The image of a quadrant population in the integer plane. -/
def push (S : Finset Cell) : Finset (ℤ × ℤ) := S.image pushCell

theorem pushCell_mem_push {S : Finset Cell} {n : Cell} : pushCell n ∈ push S ↔ n ∈ S := by
  unfold push
  constructor
  · intro h
    obtain ⟨m, hm, hmn⟩ := Finset.mem_image.mp h
    rwa [← pushCell_injective hmn]
  · exact fun h => Finset.mem_image_of_mem _ h

theorem push_inj {S T : Finset Cell} (h : push S = push T) : S = T :=
  Finset.image_injective pushCell_injective h

theorem push_inter_zneighbors (S : Finset Cell) (c : Cell) :
    push S ∩ (zneighbors (pushCell c)).toFinset = push (S ∩ (neighborList c).toFinset) := by
  ext z
  obtain ⟨z1, z2⟩ := z
  obtain ⟨c1, c2⟩ := c
  simp only [Finset.mem_inter, push, Finset.mem_image, List.mem_toFinset, mem_zneighbors,
    mem_neighborList, pushCell, Prod.mk.injEq, ne_eq, not_and, Prod.exists]
  constructor
  · rintro ⟨⟨n1, n2, hnS, hz1, hz2⟩, hne, hb⟩
    refine ⟨n1, n2, ⟨hnS, ?_, ?_⟩, hz1, hz2⟩
    · omega
    · omega
  · rintro ⟨n1, n2, ⟨hnS, hne, hb⟩, hz1, hz2⟩
    refine ⟨⟨n1, n2, hnS, hz1, hz2⟩, ?_, ?_⟩
    · omega
    · omega

theorem countN_eq_countZ (S : Finset Cell) (c : Cell) :
    countN S c = countZ (push S) (pushCell c) := by
  rw [countN_eq_card, countZ_eq_card, push_inter_zneighbors]
  exact (Finset.card_image_of_injective _ pushCell_injective).symm

theorem aliveNext_push {S : Finset Cell} {n : Cell} :
    aliveNextZ (push S) (pushCell n) ↔ aliveNextN S n := by
  unfold aliveNextZ aliveNextN
  rw [← countN_eq_countZ, pushCell_mem_push]

/-- Pushing one `natLife` step into the plane: take one `lifeZ` step there
and keep the non-negative part. -/
theorem push_natLife (S : Finset Cell) :
    push (natLife S) = (lifeZ (push S)).filter (fun z => 0 ≤ z.1 ∧ 0 ≤ z.2) := by
  ext z
  rw [Finset.mem_filter, mem_lifeZ]
  constructor
  · intro h
    obtain ⟨n, hn, hnz⟩ := Finset.mem_image.mp h
    rw [mem_natLife] at hn
    subst hnz
    refine ⟨aliveNext_push.mpr hn, ?_, ?_⟩
    · exact Int.natCast_nonneg _
    · exact Int.natCast_nonneg _
  · rintro ⟨halive, h1, h2⟩
    have hz : z = pushCell (z.1.toNat, z.2.toNat) := by
      obtain ⟨z1, z2⟩ := z
      simp only [pushCell, Prod.mk.injEq]
      omega
    rw [hz] at halive ⊢
    rw [pushCell_mem_push, mem_natLife]
    exact aliveNext_push.mp halive

/-! ## Translation equivariance in the plane -/

/-- Translation by a fixed integer vector. -/
def trZ (v : ℤ × ℤ) (c : ℤ × ℤ) : ℤ × ℤ := (c.1 + v.1, c.2 + v.2)

theorem trZ_injective (v : ℤ × ℤ) : Function.Injective (trZ v) := by
  intro a b h
  obtain ⟨a1, a2⟩ := a
  obtain ⟨b1, b2⟩ := b
  simp only [trZ, Prod.mk.injEq] at h ⊢
  omega

theorem zneighbors_trZ (v c : ℤ × ℤ) :
    zneighbors (trZ v c) = (zneighbors c).map (trZ v) := by
  obtain ⟨c1, c2⟩ := c
  obtain ⟨v1, v2⟩ := v
  simp only [zneighbors, trZ, List.map_cons, List.map_nil, List.cons.injEq, Prod.mk.injEq,
    and_true, true_and]
  omega

theorem mem_image_trZ {S : Finset (ℤ × ℤ)} {v c : ℤ × ℤ} :
    trZ v c ∈ S.image (trZ v) ↔ c ∈ S := by
  constructor
  · intro h
    obtain ⟨w, hw, hwc⟩ := Finset.mem_image.mp h
    rwa [← trZ_injective v hwc]
  · exact fun h => Finset.mem_image_of_mem _ h

theorem countZ_trZ (S : Finset (ℤ × ℤ)) (v c : ℤ × ℤ) :
    countZ (S.image (trZ v)) (trZ v c) = countZ S c := by
  unfold countZ
  rw [zneighbors_trZ, ← List.countP_eq_length_filter, ← List.countP_eq_length_filter,
    List.countP_map]
  refine List.countP_congr ?_
  intro n _
  simp only [Function.comp_apply, decide_eq_true_eq]
  exact mem_image_trZ

theorem aliveNextZ_trZ {S : Finset (ℤ × ℤ)} {v c : ℤ × ℤ} :
    aliveNextZ (S.image (trZ v)) (trZ v c) ↔ aliveNextZ S c := by
  unfold aliveNextZ
  rw [countZ_trZ, mem_image_trZ]

theorem lifeZ_image_trZ (S : Finset (ℤ × ℤ)) (v : ℤ × ℤ) :
    lifeZ (S.image (trZ v)) = (lifeZ S).image (trZ v) := by
  ext z
  rw [mem_lifeZ]
  constructor
  · intro h
    have hz : z = trZ v (z.1 - v.1, z.2 - v.2) := by
      obtain ⟨z1, z2⟩ := z
      simp only [trZ, Prod.mk.injEq]
      omega
    rw [hz] at h ⊢
    rw [aliveNextZ_trZ] at h
    exact Finset.mem_image_of_mem _ (mem_lifeZ.mpr h)
  · intro h
    obtain ⟨w, hw, hwz⟩ := Finset.mem_image.mp h
    subst hwz
    rw [aliveNextZ_trZ]
    exact mem_lifeZ.mp hw

theorem image_trZ_nonneg {U : Finset (ℤ × ℤ)} {v : ℤ × ℤ}
    (hU : ∀ z ∈ U, 0 ≤ z.1 ∧ 0 ≤ z.2) (hv : 0 ≤ v.1 ∧ 0 ≤ v.2) :
    ∀ z ∈ U.image (trZ v), 0 ≤ z.1 ∧ 0 ≤ z.2 := by
  intro z hz
  obtain ⟨w, hw, hwz⟩ := Finset.mem_image.mp hz
  subst hwz
  have := hU w hw
  unfold trZ
  constructor
  · simp only []
    omega
  · simp only []
    omega

/-- One translated step in the plane, pulled back to the quadrant: when the
translated next generation is all non-negative, `natLife` agrees with it. -/
theorem push_natLife_step {S : Finset Cell} {G H : Finset (ℤ × ℤ)} {v : ℤ × ℤ}
    (hS : push S = G.image (trZ v)) (hGH : lifeZ G = H)
    (hH : ∀ z ∈ H, 0 ≤ z.1 ∧ 0 ≤ z.2) (hv : 0 ≤ v.1 ∧ 0 ≤ v.2) :
    push (natLife S) = H.image (trZ v) := by
  rw [push_natLife, hS, lifeZ_image_trZ, hGH]
  exact Finset.filter_eq_self.mpr (image_trZ_nonneg hH hv)

/-! ## Concrete pattern evolutions in the plane -/

/-- The glider's cells at plane origin `(2, 0)`. -/
def gliderZ0 : Finset (ℤ × ℤ) := {(2, 0), (1, 1), (1, 2), (2, 2), (3, 2)}

def gliderZ1 : Finset (ℤ × ℤ) := {(1, 1), (1, 2), (2, 2), (2, 3), (3, 1)}

def gliderZ2 : Finset (ℤ × ℤ) := {(1, 1), (2, 3), (1, 2), (1, 3), (3, 2)}

def gliderZ3 : Finset (ℤ × ℤ) := {(1, 3), (0, 2), (1, 2), (2, 1), (2, 3)}

/-- After four generations the glider has moved one step left and one step
down: these are the `gliderZ0` cells translated by `(-1, +1)`. -/
def gliderZ4 : Finset (ℤ × ℤ) := {(0, 2), (0, 3), (2, 3), (1, 1), (1, 3)}

theorem lifeZ_gliderZ0 : lifeZ gliderZ0 = gliderZ1 := by decide

theorem lifeZ_gliderZ1 : lifeZ gliderZ1 = gliderZ2 := by decide

theorem lifeZ_gliderZ2 : lifeZ gliderZ2 = gliderZ3 := by decide

theorem lifeZ_gliderZ3 : lifeZ gliderZ3 = gliderZ4 := by decide

theorem nonneg_gliderZ1 : ∀ z ∈ gliderZ1, 0 ≤ z.1 ∧ 0 ≤ z.2 := by decide

theorem nonneg_gliderZ2 : ∀ z ∈ gliderZ2, 0 ≤ z.1 ∧ 0 ≤ z.2 := by decide

theorem nonneg_gliderZ3 : ∀ z ∈ gliderZ3, 0 ≤ z.1 ∧ 0 ≤ z.2 := by decide

theorem nonneg_gliderZ4 : ∀ z ∈ gliderZ4, 0 ≤ z.1 ∧ 0 ≤ z.2 := by decide

/-- The blinker's cells at plane origin `(0, 1)`. -/
def blinkerZ0 : Finset (ℤ × ℤ) := {(0, 1), (1, 1), (2, 1)}

def blinkerZ1 : Finset (ℤ × ℤ) := {(1, 0), (1, 1), (1, 2)}

theorem lifeZ_blinkerZ0 : lifeZ blinkerZ0 = blinkerZ1 := by decide

theorem lifeZ_blinkerZ1 : lifeZ blinkerZ1 = blinkerZ0 := by decide

theorem nonneg_blinkerZ0 : ∀ z ∈ blinkerZ0, 0 ≤ z.1 ∧ 0 ≤ z.2 := by decide

theorem nonneg_blinkerZ1 : ∀ z ∈ blinkerZ1, 0 ≤ z.1 ∧ 0 ≤ z.2 := by decide

/-- The block's cells at plane origin `(0, 0)`. -/
def blockZ0 : Finset (ℤ × ℤ) := {(0, 0), (1, 0), (0, 1), (1, 1)}

theorem lifeZ_blockZ0 : lifeZ blockZ0 = blockZ0 := by decide

theorem nonneg_blockZ0 : ∀ z ∈ blockZ0, 0 ≤ z.1 ∧ 0 ≤ z.2 := by decide

/-! ## The seeded patterns as translated plane sets -/

theorem push_glider (a b : Nat) (ha : 1 ≤ a) :
    push ((Spaceship.Glider.seedCells (a, b)).toFinset) =
      gliderZ0.image (trZ ((a : ℤ) - 2, (b : ℤ))) := by
  ext z
  obtain ⟨z1, z2⟩ := z
  simp [Spaceship.seedCells, push, pushCell, gliderZ0, trZ, Prod.ext_iff]
  omega

theorem glider_final (a b : Nat) (ha : 2 ≤ a) :
    gliderZ4.image (trZ ((a : ℤ) - 2, (b : ℤ))) =
      push ((Spaceship.Glider.seedCells (a - 1, b + 1)).toFinset) := by
  ext z
  obtain ⟨z1, z2⟩ := z
  simp [Spaceship.seedCells, push, pushCell, gliderZ4, trZ, Prod.ext_iff]
  omega

theorem push_blinker (a b : Nat) :
    push ((Oscillator.Blinker.seedCells (a, b)).toFinset) =
      blinkerZ0.image (trZ ((a : ℤ), (b : ℤ) - 1)) := by
  ext z
  obtain ⟨z1, z2⟩ := z
  simp [Oscillator.seedCells, push, pushCell, blinkerZ0, trZ, Prod.ext_iff]
  omega

theorem push_block (a b : Nat) :
    push ((Still.Block.seedCells (a, b)).toFinset) =
      blockZ0.image (trZ ((a : ℤ), (b : ℤ))) := by
  ext z
  obtain ⟨z1, z2⟩ := z
  simp [Still.seedCells, push, pushCell, blockZ0, trZ, Prod.ext_iff]
  omega

/-! ## Universal pattern facts at the set level -/

theorem glider_natLife4 (a b : Nat) (ha : 2 ≤ a) :
    natLife (natLife (natLife (natLife ((Spaceship.Glider.seedCells (a, b)).toFinset)))) =
      (Spaceship.Glider.seedCells (a - 1, b + 1)).toFinset := by
  have hv : (0 : ℤ) ≤ ((a : ℤ) - 2, (b : ℤ)).1 ∧ (0 : ℤ) ≤ ((a : ℤ) - 2, (b : ℤ)).2 := by
    constructor
    · simp only []
      omega
    · simp only []
      omega
  have h0 := push_glider a b (by omega)
  have h1 := push_natLife_step h0 lifeZ_gliderZ0 nonneg_gliderZ1 hv
  have h2 := push_natLife_step h1 lifeZ_gliderZ1 nonneg_gliderZ2 hv
  have h3 := push_natLife_step h2 lifeZ_gliderZ2 nonneg_gliderZ3 hv
  have h4 := push_natLife_step h3 lifeZ_gliderZ3 nonneg_gliderZ4 hv
  exact push_inj (h4.trans (glider_final a b ha))

theorem blinker_natLife2 (a b : Nat) (hb : 1 ≤ b) :
    natLife (natLife ((Oscillator.Blinker.seedCells (a, b)).toFinset)) =
      (Oscillator.Blinker.seedCells (a, b)).toFinset := by
  have hv : (0 : ℤ) ≤ ((a : ℤ), (b : ℤ) - 1).1 ∧ (0 : ℤ) ≤ ((a : ℤ), (b : ℤ) - 1).2 := by
    constructor
    · simp only []
      omega
    · simp only []
      omega
  have h0 := push_blinker a b
  have h1 := push_natLife_step h0 lifeZ_blinkerZ0 nonneg_blinkerZ1 hv
  have h2 := push_natLife_step h1 lifeZ_blinkerZ1 nonneg_blinkerZ0 hv
  exact push_inj (h2.trans h0.symm)

theorem block_natLife (a b : Nat) :
    natLife ((Still.Block.seedCells (a, b)).toFinset) =
      (Still.Block.seedCells (a, b)).toFinset := by
  have hv : (0 : ℤ) ≤ ((a : ℤ), (b : ℤ)).1 ∧ (0 : ℤ) ≤ ((a : ℤ), (b : ℤ)).2 := by
    constructor
    · simp only []
      omega
    · simp only []
      omega
  have h0 := push_block a b
  have h1 := push_natLife_step h0 lifeZ_blockZ0 nonneg_blockZ0 hv
  exact push_inj (h1.trans h0.symm)

/-! ## Glue lemmas for the grid operations -/

theorem seed_cells (g : Grid) (s : Seed) (o : Cell) :
    (g.seed s o).cells = g.cells ∪ (s.seedCells o).toFinset := by
  unfold Grid.seed
  exact foldl_add_cell_cells _ _

theorem seed_preview (g : Grid) (s : Seed) (o : Cell) :
    (g.seed s o).preview = if ∀ c ∈ s.seedCells o, c ∈ g.cells then g.preview else ∅ := by
  unfold Grid.seed
  exact foldl_add_cell_preview _ _

theorem seed_Inv {g : Grid} (hg : g.Inv) (s : Seed) (o : Cell) : (g.seed s o).Inv := by
  unfold Grid.seed
  exact foldl_add_cell_Inv _ hg

theorem new_seed_cells (w h : Nat) (s : Seed) (o : Cell) :
    ((Grid.new w h).seed s o).cells = (s.seedCells o).toFinset := by
  rw [seed_cells]
  exact Finset.empty_union _

theorem preview_seed_Inv {g : Grid} (hg : g.Inv) (s : Seed) (o : Cell) :
    (g.preview_seed s o).Inv := hg

theorem clear_Inv (g : Grid) : g.clear.Inv := by
  constructor
  · exact List.nodup_nil
  · rfl

theorem resize_Inv {g : Grid} (hg : g.Inv) (w h : Nat) : (g.resize w h).Inv := by
  unfold Grid.resize
  split
  · exact hg
  · exact foldl_add_cell_Inv _ (Grid.new_Inv w h)

theorem tickCandidates_congr {g g' : Grid} (hc : g.cells = g'.cells)
    (hl : g.cells_list = g'.cells_list) : tickCandidates g = tickCandidates g' := by
  unfold tickCandidates
  simp only [count_neighbors_eq_countN, hc, hl]

theorem tick_cells_congr {g g' : Grid} (hc : g.cells = g'.cells)
    (hl : g.cells_list = g'.cells_list) : g.tick.cells = g'.tick.cells := by
  rw [tick_eq_foldl, tick_eq_foldl, foldl_add_cell_cells, foldl_add_cell_cells,
    tickCandidates_congr hc hl]
  rfl

/-! ## Iterated ticks -/

theorem tick_iter_cells (k : Nat) :
    ∀ (g : Grid), g.Inv → (Grid.tick^[k] g).cells = natLife^[k] g.cells := by
  induction k with
  | zero => intro g _; rfl
  | succ n ih =>
      intro g hg
      rw [Function.iterate_succ_apply, Function.iterate_succ_apply, ih g.tick (tick_Inv g),
        tick_cells hg.wf]

/-! ## Concrete grids used as witnesses -/

/-- A 3x3 grid holding the reproduction scenario of the test suite. -/
def gA : Grid := (((Grid.new 3 3).add_cell (0, 0)).add_cell (1, 0)).add_cell (2, 1)

/-- A 3x3 grid with a vertical triple on its right edge. -/
def gEdge : Grid := (((Grid.new 3 3).add_cell (2, 0)).add_cell (2, 1)).add_cell (2, 2)

/-- Two-cell grids with identical populations built in different orders,
the second carrying a preview overlay. -/
def gB1 : Grid := ((Grid.new 3 3).add_cell (0, 0)).add_cell (1, 1)

def gB2 : Grid :=
  (((Grid.new 3 3).add_cell (1, 1)).add_cell (0, 0)).preview_seed (Seed.Still Still.Block) (0, 0)

/-! ## The claims -/

/-- C1: on a well-formed grid, `tick()` advances exactly one generation of
the standard rule computed from the frozen pre-tick population: a cell is
live afterwards iff it was live with exactly 2 or 3 live neighbors before,
or dead with exactly 3 live neighbors before. -/
theorem spec_tick_one_generation (g : Grid) (hg : g.Inv) (c : Cell) :
    c ∈ g.tick.cells ↔
      (c ∈ g.cells ∧ (g.count_neighbors c = 2 ∨ g.count_neighbors c = 3)) ∨
        (c ∉ g.cells ∧ g.count_neighbors c = 3) := by
  rw [tick_cells hg.wf, mem_natLife]
  unfold aliveNextN
  simp only [count_neighbors_eq_countN]

theorem spec_tick_one_generation_witness :
    (1, 1) ∈ gA.tick.cells ↔
      ((1, 1) ∈ gA.cells ∧ (gA.count_neighbors (1, 1) = 2 ∨ gA.count_neighbors (1, 1) = 3)) ∨
        ((1, 1) ∉ gA.cells ∧ gA.count_neighbors (1, 1) = 3) :=
  spec_tick_one_generation gA ⟨by decide, by decide⟩ (1, 1)

/-- C2 counterexample: a vertical triple sitting on the right edge of a 3x3
grid is entirely in-bounds, yet `tick()` births the cell `(3, 1)` whose
x-coordinate equals the width — the claim that no cell is ever born outside
`[0,width)x[0,height)` is false. -/
theorem spec_no_out_of_bounds_cex :
    (∀ c ∈ gEdge.cells, c.1 < gEdge.width ∧ c.2 < gEdge.height) ∧
      (3, 1) ∈ gEdge.tick.cells ∧ ¬((3 : Nat) < gEdge.width) := by decide

/-- C2 (amended): `tick()` applies no bounds check at all — the post-tick
live set is computed from the pre-tick population and iteration list alone,
independently of `width` and `height`, and a grid whose live cells are all
in-bounds can tick into a population containing an out-of-bounds cell (the
only hard boundary is coordinate zero, since coordinates are unsigned). -/
theorem spec_tick_ignores_bounds (g g' : Grid) (hc : g.cells = g'.cells)
    (hl : g.cells_list = g'.cells_list) :
    g.tick.cells = g'.tick.cells ∧
      ∃ g₀ : Grid, (∀ c ∈ g₀.cells, c.1 < g₀.width ∧ c.2 < g₀.height) ∧
        ∃ c ∈ g₀.tick.cells, ¬(c.1 < g₀.width ∧ c.2 < g₀.height) :=
  ⟨tick_cells_congr hc hl, gEdge, by decide, (3, 1), by decide, by decide⟩

theorem spec_tick_ignores_bounds_witness :
    (((Grid.new 3 3).add_cell (1, 1)).tick).cells =
        (((Grid.new 7 9).add_cell (1, 1)).tick).cells ∧
      ∃ g₀ : Grid, (∀ c ∈ g₀.cells, c.1 < g₀.width ∧ c.2 < g₀.height) ∧
        ∃ c ∈ g₀.tick.cells, ¬(c.1 < g₀.width ∧ c.2 < g₀.height) :=
  spec_tick_ignores_bounds ((Grid.new 3 3).add_cell (1, 1)) ((Grid.new 7 9).add_cell (1, 1))
    (by decide) (by decide)

/-- C3 counterexample: the glider seeded at `(3, 3)` does not, after four
ticks, land on the cell set of the glider seeded at `(4, 4)` — the code's
glider is mirrored and travels toward decreasing x. -/
theorem spec_glider_per4_cex :
    (((Grid.new 12 12).seed (Seed.Spaceship Spaceship.Glider) (3, 3)).tick.tick.tick.tick).cells ≠
      ((Grid.new 12 12).seed (Seed.Spaceship Spaceship.Glider) (4, 4)).cells := by decide

/-- C3 (amended): for every glider placement with x-origin at least 2, four
ticks translate the glider's cell set by `(-1, +1)` — one step toward the
low-x side and one step down — i.e. onto the glider seeded at
`(x - 1, y + 1)`; and for every blinker placement with y-origin at least 1,
two ticks return the blinker to its original cell set. -/
theorem spec_glider_blinker_periods (w h a b a' b' : Nat) (ha : 2 ≤ a) (hb : 1 ≤ b') :
    ((((Grid.new w h).seed (Seed.Spaceship Spaceship.Glider) (a, b)).tick.tick.tick.tick).cells =
        ((Grid.new w h).seed (Seed.Spaceship Spaceship.Glider) (a - 1, b + 1)).cells) ∧
      ((((Grid.new w h).seed (Seed.Oscillator Oscillator.Blinker) (a', b')).tick.tick).cells =
        ((Grid.new w h).seed (Seed.Oscillator Oscillator.Blinker) (a', b')).cells) := by
  constructor
  · have e :=
      tick_iter_cells 4 ((Grid.new w h).seed (Seed.Spaceship Spaceship.Glider) (a, b))
        (seed_Inv (Grid.new_Inv w h) _ _)
    show (Grid.tick^[4] ((Grid.new w h).seed (Seed.Spaceship Spaceship.Glider) (a, b))).cells = _
    rw [e, new_seed_cells, new_seed_cells]
    show natLife (natLife (natLife (natLife ((Spaceship.Glider.seedCells (a, b)).toFinset)))) =
      (Spaceship.Glider.seedCells (a - 1, b + 1)).toFinset
    exact glider_natLife4 a b ha
  · have e :=
      tick_iter_cells 2 ((Grid.new w h).seed (Seed.Oscillator Oscillator.Blinker) (a', b'))
        (seed_Inv (Grid.new_Inv w h) _ _)
    show (Grid.tick^[2] ((Grid.new w h).seed (Seed.Oscillator Oscillator.Blinker) (a', b'))).cells = _
    rw [e, new_seed_cells]
    show natLife (natLife ((Oscillator.Blinker.seedCells (a', b')).toFinset)) =
      (Oscillator.Blinker.seedCells (a', b')).toFinset
    exact blinker_natLife2 a' b' hb

theorem spec_glider_blinker_periods_witness :
    ((((Grid.new 10 10).seed (Seed.Spaceship Spaceship.Glider) (3, 3)).tick.tick.tick.tick).cells =
        ((Grid.new 10 10).seed (Seed.Spaceship Spaceship.Glider) (2, 4)).cells) ∧
      ((((Grid.new 10 10).seed (Seed.Oscillator Oscillator.Blinker) (2, 2)).tick.tick).cells =
        ((Grid.new 10 10).seed (Seed.Oscillator Oscillator.Blinker) (2, 2)).cells) :=
  spec_glider_blinker_periods 10 10 3 3 2 2 (by decide) (by decide)

/-- C4 counterexample: seeding a pattern whose every cell is already live
performs no insertion, so the pending preview overlay is NOT cleared — here
it still holds `(4, 4)` after the seed call. -/
theorem spec_seed_clears_preview_cex :
    ((((Grid.new 5 5).add_cell (2, 2)).preview_seed (Seed.Cell (0, 0)) (4, 4)).seed
        (Seed.Cell (0, 0)) (2, 2)).preview ≠ ∅ := by decide

/-- C4 (amended): `seed(pattern, origin)` adds every cell of the pattern's
expansion at that origin to the live population; the preview overlay is
empty afterwards when some expanded cell was not already live, but when the
whole expansion was already live no insertion happens and the preview is
left untouched. -/
theorem spec_seed_adds_expansion (g : Grid) (s : Seed) (o : Cell) :
    (g.seed s o).cells = g.cells ∪ (s.seedCells o).toFinset ∧
      (g.seed s o).preview =
        if ∀ c ∈ s.seedCells o, c ∈ g.cells then g.preview else ∅ :=
  ⟨seed_cells g s o, seed_preview g s o⟩

/-- C5: resizing to the current dimensions leaves the entire state
unchanged; resizing to different dimensions yields a grid of the new
dimensions whose live set is exactly the previous live cells with `x < w`
and `y < h`, with an empty preview. -/
theorem spec_resize_reprojects (g : Grid) (w h : Nat) (hg : g.Inv) :
    g.resize g.width g.height = g ∧
      (¬(w = g.width ∧ h = g.height) →
        (g.resize w h).width = w ∧ (g.resize w h).height = h ∧
          (g.resize w h).cells = g.cells.filter (fun c => c.1 < w ∧ c.2 < h) ∧
          (g.resize w h).preview = ∅) := by
  constructor
  · unfold Grid.resize
    rw [if_pos ⟨rfl, rfl⟩]
  · intro hne
    unfold Grid.resize
    rw [if_neg hne]
    refine ⟨?_, ?_, ?_, ?_⟩
    · rw [foldl_add_cell_width]
      rfl
    · rw [foldl_add_cell_height]
      rfl
    · rw [foldl_add_cell_cells]
      have hnew : (Grid.new w h).cells = ∅ := rfl
      rw [hnew, Finset.empty_union]
      ext c
      rw [List.mem_toFinset, List.mem_filter, Finset.mem_filter, decide_eq_true_eq, hg.wf c]
    · rw [foldl_add_cell_preview]
      split <;> rfl

theorem spec_resize_reprojects_witness :
    (gA.resize gA.width gA.height = gA) ∧
      ((gA.resize 2 2).width = 2 ∧ (gA.resize 2 2).height = 2 ∧
        (gA.resize 2 2).cells = gA.cells.filter (fun c => c.1 < 2 ∧ c.2 < 2) ∧
        (gA.resize 2 2).preview = ∅) :=
  ⟨(spec_resize_reprojects gA 2 2 ⟨by decide, by decide⟩).1,
    (spec_resize_reprojects gA 2 2 ⟨by decide, by decide⟩).2 (by decide)⟩

/-- C6: the preview overlay never influences `tick()` — two well-formed
grids with the same dimensions and the same live set tick to the same live
set whatever their previews, and setting any preview before ticking changes
nothing about the resulting live set. -/
theorem spec_preview_never_ticks (g₁ g₂ : Grid) (h₁ : g₁.Inv) (h₂ : g₂.Inv)
    (_hw : g₁.width = g₂.width) (_hh : g₁.height = g₂.height) (hc : g₁.cells = g₂.cells) :
    g₁.tick.cells = g₂.tick.cells ∧
      ∀ (s : Seed) (o : Cell), ((g₁.preview_seed s o).tick).cells = g₁.tick.cells := by
  constructor
  · rw [tick_cells h₁.wf, tick_cells h₂.wf, hc]
  · intro s o
    exact tick_cells_congr rfl rfl

theorem spec_preview_never_ticks_witness :
    gB1.tick.cells = gB2.tick.cells ∧
      ((gB1.preview_seed (Seed.Still Still.Block) (1, 1)).tick).cells = gB1.tick.cells :=
  ⟨(spec_preview_never_ticks gB1 gB2 ⟨by decide, by decide⟩ ⟨by decide, by decide⟩
      (by decide) (by decide) (by decide)).1,
    (spec_preview_never_ticks gB1 gB2 ⟨by decide, by decide⟩ ⟨by decide, by decide⟩
      (by decide) (by decide) (by decide)).2 (Seed.Still Still.Block) (1, 1)⟩

/-- C7: a Block still-life placed at any origin whatsoever is unchanged by
`tick()`: seeding an empty grid with the Block and ticking yields exactly
the pre-tick live cell set. -/
theorem spec_block_still_life (w h a b : Nat) :
    (((Grid.new w h).seed (Seed.Still Still.Block) (a, b)).tick).cells =
      ((Grid.new w h).seed (Seed.Still Still.Block) (a, b)).cells := by
  rw [tick_cells (seed_Inv (Grid.new_Inv w h) _ _).wf, new_seed_cells]
  show natLife ((Still.Block.seedCells (a, b)).toFinset) =
    (Still.Block.seedCells (a, b)).toFinset
  exact block_natLife a b

/-- C8: seeding is idempotent on the live population — seeding the same
pattern at the same origin twice leaves the same live set as seeding once —
and inserting an already-live cell is a population no-op. -/
theorem spec_seed_idempotent (g : Grid) (s : Seed) (o : Cell) :
    ((g.seed s o).seed s o).cells = (g.seed s o).cells ∧
      ∀ c ∈ g.cells, (g.add_cell c).cells = g.cells := by
  constructor
  · rw [seed_cells, seed_cells, Finset.union_assoc, Finset.union_self]
  · intro c hc
    rw [Grid.add_cell_of_mem hc]

theorem spec_seed_idempotent_witness :
    (((Grid.new 5 5).seed (Seed.Still Still.Block) (1, 1)).seed
          (Seed.Still Still.Block) (1, 1)).cells =
        ((Grid.new 5 5).seed (Seed.Still Still.Block) (1, 1)).cells ∧
      ((((Grid.new 5 5).add_cell (2, 2)).add_cell (2, 2)).cells =
        ((Grid.new 5 5).add_cell (2, 2)).cells) :=
  ⟨(spec_seed_idempotent (Grid.new 5 5) (Seed.Still Still.Block) (1, 1)).1,
    (spec_seed_idempotent ((Grid.new 5 5).add_cell (2, 2)) (Seed.Still Still.Block) (1, 1)).2
      (2, 2) (by decide)⟩

/-- C9: the pattern-index lookup is a pure total function — index 0 and
every index at least 15 map to the single-cell pattern, and indices 1
through 14 map, in order and without repetition, to the 14 named variants. -/
theorem spec_select_seed_table :
    select_seed 0 = Seed.Cell (0, 0) ∧
      (∀ n : Nat, 15 ≤ n → select_seed n = Seed.Cell (0, 0)) ∧
      (List.range 14).map (fun i => select_seed (i + 1)) =
        [Seed.Still Still.Block, Seed.Still Still.Beehive, Seed.Still Still.Loaf,
          Seed.Still Still.Boat, Seed.Still Still.Tub,
          Seed.Oscillator Oscillator.Blinker, Seed.Oscillator Oscillator.Toad,
          Seed.Oscillator Oscillator.Beacon, Seed.Oscillator Oscillator.Pulsar,
          Seed.Oscillator Oscillator.PentaDecathlon,
          Seed.Spaceship Spaceship.Glider, Seed.Spaceship Spaceship.LwSpaceship,
          Seed.Spaceship Spaceship.MwSpaceship, Seed.Spaceship Spaceship.HwSpaceship] ∧
      ((List.range 14).map (fun i => select_seed (i + 1))).Nodup := by
  refine ⟨rfl, ?_, by decide, by decide⟩
  intro n hn
  obtain ⟨m, rfl⟩ : ∃ m, n = m + 15 := ⟨n - 15, by omega⟩
  rfl

theorem spec_select_seed_table_witness :
    select_seed 0 = Seed.Cell (0, 0) ∧ select_seed 20 = Seed.Cell (0, 0) :=
  ⟨spec_select_seed_table.1, spec_select_seed_table.2.1 20 (by decide)⟩

/-- C10: every grid operation preserves the invariant that `cells_list`
holds exactly the elements of `cells`, each exactly once. -/
theorem spec_cells_list_invariant (g : Grid) (hg : g.Inv) (c : Cell) (s : Seed) (o : Cell)
    (w h : Nat) :
    (Grid.new w h).Inv ∧ (g.add_cell c).Inv ∧ (g.seed s o).Inv ∧ (g.preview_seed s o).Inv ∧
      (g.resize w h).Inv ∧ g.clear.Inv ∧ g.tick.Inv :=
  ⟨Grid.new_Inv w h, Grid.add_cell_Inv hg c, seed_Inv hg s o, preview_seed_Inv hg s o,
    resize_Inv hg w h, clear_Inv g, tick_Inv g⟩

theorem spec_cells_list_invariant_witness :
    (Grid.new 4 4).Inv ∧ (gA.add_cell (1, 1)).Inv ∧
      (gA.seed (Seed.Still Still.Tub) (1, 1)).Inv ∧
      (gA.preview_seed (Seed.Still Still.Tub) (1, 1)).Inv ∧ (gA.resize 4 4).Inv ∧
      gA.clear.Inv ∧ gA.tick.Inv :=
  spec_cells_list_invariant gA ⟨by decide, by decide⟩ (1, 1) (Seed.Still Still.Tub) (1, 1) 4 4
